import Mathlib

/-!
The user-space loader of ssl_sniffer, `src/ssl_sniffer/ebpf/loader.c`.

A shallow embedding of the loader: the two globals (`skel`, `exiting`), the
lifecycle functions `ssl_load` and `ssl_exit`, the three attach functions built
from the `__ATTACH_UPROBE` macro, the default event handler `log_event` and
the consumer loop `ssl_listen_event`.

The libbpf entry points the loader calls (`sniffer_bpf__open`,
`sniffer_bpf__load`, `sniffer_bpf__destroy`, `bpf_program__attach_uprobe_opts`,
`ring_buffer__new`, `ring_buffer__poll`) are the environment.  What they return
is an argument of the embedded function; what they are passed is recorded in
logs kept in the state, so that statements about releases and attachments can
be made.
-/

namespace SslSniffer

/-! ## Data model -/

/-- The BPF programs the loader refers to through `skel->progs.X` and
`skel->links.X`; these four are the ones named in `loader.c`. -/
inductive Prog where
  | probe_fd_attach_ssl
  | probe_ssl_rw_enter
  | probe_ssl_write_return
  | probe_ssl_read_return
  deriving DecidableEq, Repr

/-- One use of `__ATTACH_UPROBE`: the symbol, the BPF program whose link slot
receives the handle, and the `retprobe` option. -/
structure ProbeSpec where
  func_name : String
  ebpf_fn : Prog
  is_retprobe : Bool
  deriving DecidableEq, Repr

/-- The member `links` of `struct sniffer_bpf`: one pointer per program,
`none` being `NULL`. -/
structure Links where
  probe_fd_attach_ssl : Option Nat
  probe_ssl_rw_enter : Option Nat
  probe_ssl_write_return : Option Nat
  probe_ssl_read_return : Option Nat
  deriving DecidableEq, Repr

/-- A freshly opened skeleton has every link slot `NULL`. -/
def Links.empty : Links := ⟨none, none, none, none⟩

/-- Assign `links.X = v`. -/
def Links.set (l : Links) (p : Prog) (v : Option Nat) : Links :=
  match p with
  | .probe_fd_attach_ssl => { l with probe_fd_attach_ssl := v }
  | .probe_ssl_rw_enter => { l with probe_ssl_rw_enter := v }
  | .probe_ssl_write_return => { l with probe_ssl_write_return := v }
  | .probe_ssl_read_return => { l with probe_ssl_read_return := v }

/-- The handles held in the link slots, in slot order. -/
def Links.handles (l : Links) : List Nat :=
  l.probe_fd_attach_ssl.toList ++ l.probe_ssl_rw_enter.toList ++
    l.probe_ssl_write_return.toList ++ l.probe_ssl_read_return.toList

/-- The state of the module and of the resources it has touched.

* `skel`, `exiting` are the two globals of `loader.c` (`none` is `NULL`);
* `links` is `skel->links` of the object `skel` points to;
* `nextSkel`, `nextLink` number the objects the environment hands out, so
  every skeleton and every link handle is fresh;
* `attempts` logs every call of `bpf_program__attach_uprobe_opts`,
  `attached` every link such a call created (handle and spec);
* `destroyed` logs every pointer passed to `sniffer_bpf__destroy`,
  `released` every link handle such a call destroyed;
* `stderr` is what was written to the error stream. -/
structure World where
  skel : Option Nat
  exiting : Bool
  links : Links
  nextSkel : Nat
  nextLink : Nat
  attempts : List ProbeSpec
  attached : List (Nat × ProbeSpec)
  destroyed : List Nat
  released : List Nat
  stderr : List String
  deriving DecidableEq, Repr

/-- The state at program start: `skel` is `NULL`, `exiting` is `false`. -/
def World.start : World :=
  { skel := none, exiting := false, links := Links.empty, nextSkel := 0, nextLink := 0,
    attempts := [], attached := [], destroyed := [], released := [], stderr := [] }

/-- The global `skel` points to a skeleton that has not been destroyed. -/
def World.skelLive (w : World) : Bool :=
  match w.skel with
  | none => false
  | some p => !(w.destroyed.contains p)

/-- The attachments that exist and have not been released. -/
def World.held (w : World) : List Nat :=
  (w.attached.map Prod.fst).filter fun h => !(w.released.contains h)

/-! ## Lifecycle: `ssl_load`, `ssl_exit` -/

/-- Environment: `sniffer_bpf__destroy(p)`, from the skeleton header that
bpftool generates at build time.  As a libbpf skeleton does, it destroys the
link stored in each slot of `skel->links` and frees the object; it knows no
link but those in the slots.  The pointer passed and the links destroyed are
logged. -/
def sniffer_bpf__destroy (p : Nat) (w : World) : World :=
  { w with destroyed := w.destroyed ++ [p], released := w.released ++ w.links.handles }

/-- `ssl_exit` (loader.c 38-44). -/
def ssl_exit (w : World) : World :=
  match w.skel with
  | none => w
  | some p => sniffer_bpf__destroy p { w with exiting := true }

/-- `ssl_load` (loader.c 62-79).  `openOk` says whether `sniffer_bpf__open`
returns an object, `loadErr` is the value of `sniffer_bpf__load`. -/
def ssl_load (openOk : Bool) (loadErr : Int) (w : World) : Int × World :=
  if openOk then
    let w1 := { w with skel := some w.nextSkel, links := Links.empty, nextSkel := w.nextSkel + 1 }
    if loadErr ≠ 0 then
      (1, { w1 with stderr := w1.stderr ++ ["Failed to load BPF skeleton\n"] })
    else
      (0, w1)
  else
    (1, { w with skel := none, stderr := w.stderr ++ ["Failed to open BPF skeleton\n"] })

/-! ## Attaching: `__ATTACH_UPROBE` and the three attach functions -/

/-- How a function body built from `__ATTACH_UPROBE` proceeds: it goes on to
the next statement, it has returned a value, or it has dereferenced a `skel`
that is `NULL` or already freed. -/
inductive Outcome where
  | cont (w : World)
  | ret (code : Int) (w : World)
  | fault
  deriving DecidableEq, Repr

/-- Sequencing of statements: only `cont` goes on. -/
def Outcome.andThen (o : Outcome) (f : World → Outcome) : Outcome :=
  match o with
  | .cont w => f w
  | .ret c w => .ret c w
  | .fault => .fault

/-- The macro `__ATTACH_UPROBE` (loader.c 12-24).  `ok` says whether
`bpf_program__attach_uprobe_opts` returns a link; the slot `skel->links.ebpf_fn`
is assigned in both cases. -/
def __ATTACH_UPROBE (ok : Bool) (program_path : String) (arg_func_name : String) (ebpf_fn : Prog)
    (is_retprobe : Bool) (w : World) : Outcome :=
  let _ := program_path
  if w.skelLive then
    let spec : ProbeSpec := ⟨arg_func_name, ebpf_fn, is_retprobe⟩
    if ok then
      .cont { w with links := w.links.set ebpf_fn (some w.nextLink),
                     nextLink := w.nextLink + 1,
                     attempts := w.attempts ++ [spec],
                     attached := w.attached ++ [(w.nextLink, spec)] }
    else
      .ret 1 { w with links := w.links.set ebpf_fn none,
                      attempts := w.attempts ++ [spec],
                      stderr := w.stderr ++ ["Failed to attach uprobe\n"] }
  else
    .fault

/-- `ssl_attach_openssl` (loader.c 87-95); `ok i` is the outcome of the
`i`-th attachment of the body. -/
def ssl_attach_openssl (ok : Nat → Bool) (program_path : String) (w : World) : Outcome :=
  (__ATTACH_UPROBE (ok 0) program_path "SSL_set_fd" .probe_fd_attach_ssl false w).andThen fun w =>
  (__ATTACH_UPROBE (ok 1) program_path "SSL_write" .probe_ssl_rw_enter false w).andThen fun w =>
  (__ATTACH_UPROBE (ok 2) program_path "SSL_write" .probe_ssl_write_return true w).andThen fun w =>
  (__ATTACH_UPROBE (ok 3) program_path "SSL_read" .probe_ssl_rw_enter false w).andThen fun w =>
  (__ATTACH_UPROBE (ok 4) program_path "SSL_read" .probe_ssl_read_return true w).andThen fun w =>
  .ret 0 w

/-- `ssl_attach_gnutls` (loader.c 103-110). -/
def ssl_attach_gnutls (ok : Nat → Bool) (program_path : String) (w : World) : Outcome :=
  (__ATTACH_UPROBE (ok 0) program_path "gnutls_record_send" .probe_ssl_rw_enter false w).andThen fun w =>
  (__ATTACH_UPROBE (ok 1) program_path "gnutls_record_send" .probe_ssl_write_return true w).andThen fun w =>
  (__ATTACH_UPROBE (ok 2) program_path "gnutls_record_recv" .probe_ssl_rw_enter false w).andThen fun w =>
  (__ATTACH_UPROBE (ok 3) program_path "gnutls_record_recv" .probe_ssl_read_return true w).andThen fun w =>
  .ret 0 w

/-- `ssl_attach_nss` (loader.c 118-129). -/
def ssl_attach_nss (ok : Nat → Bool) (program_path : String) (w : World) : Outcome :=
  (__ATTACH_UPROBE (ok 0) program_path "PR_Write" .probe_ssl_rw_enter false w).andThen fun w =>
  (__ATTACH_UPROBE (ok 1) program_path "PR_Write" .probe_ssl_write_return true w).andThen fun w =>
  (__ATTACH_UPROBE (ok 2) program_path "PR_Read" .probe_ssl_rw_enter false w).andThen fun w =>
  (__ATTACH_UPROBE (ok 3) program_path "PR_Read" .probe_ssl_read_return true w).andThen fun w =>
  (__ATTACH_UPROBE (ok 4) program_path "PR_Send" .probe_ssl_rw_enter false w).andThen fun w =>
  (__ATTACH_UPROBE (ok 5) program_path "PR_Send" .probe_ssl_write_return true w).andThen fun w =>
  (__ATTACH_UPROBE (ok 6) program_path "PR_Recv" .probe_ssl_rw_enter false w).andThen fun w =>
  (__ATTACH_UPROBE (ok 7) program_path "PR_Recv" .probe_ssl_read_return true w).andThen fun w =>
  .ret 0 w

/-- The three supported library families. -/
inductive Family where
  | openssl
  | gnutls
  | nss
  deriving DecidableEq, Repr

/-- The attach function of a family. -/
def ssl_attach : Family → (Nat → Bool) → String → World → Outcome
  | .openssl => ssl_attach_openssl
  | .gnutls => ssl_attach_gnutls
  | .nss => ssl_attach_nss

/-- The state an outcome carries, when it carries one. -/
def Outcome.world? : Outcome → Option World
  | .cont w => some w
  | .ret _ w => some w
  | .fault => none

/-- The state after a successful `ssl_load` at program start. -/
def World.loaded : World := (ssl_load true 0 World.start).2

/-- The specs a family's attach function attaches, read off the function
itself: the attempts it logs when every attachment succeeds. -/
def profile (f : Family) : List ProbeSpec :=
  match (ssl_attach f (fun _ => true) "" World.loaded).world? with
  | some w => w.attempts
  | none => []

/-! ## The default handler: `log_event`, `handle_event` -/

/-- Modelled from the spec: `struct data_event`, declared in the absent header
`ebpf/struct_bpf.h`.  Per the wire record of the spec: `comm` is the process
name (the text of the fixed 16-byte field up to its terminator), `pid` an
unsigned 32-bit value, `ts` an unsigned 64-bit value, `op` the one-byte
direction (READ = 1, WRITE = 2), `len` the unsigned 32-bit actual length, and
`data` the fixed buffer of captured bytes, whose length is the capacity
`MAX_CAPTURE_BYTES`. -/
structure data_event where
  comm : List Char
  pid : Nat
  ts : Nat
  op : Nat
  len : Nat
  data : List Char
  deriving DecidableEq, Repr

/-- The conversion `%d` of `fprintf` applied to a 32-bit value: the value is
read as a signed `int`. -/
def fmt_d (v : Nat) : List Char :=
  if v % 2 ^ 32 < 2 ^ 31 then Nat.toDigits 10 (v % 2 ^ 32)
  else '-' :: Nat.toDigits 10 (2 ^ 32 - v % 2 ^ 32)

/-- The conversion `%llu` of `fprintf`. -/
def fmt_llu (v : Nat) : List Char := Nat.toDigits 10 (v % 2 ^ 64)

/-- What a call of the handler does: it writes `out` to `stdout`, or it reads
`event->data[i]` at an index `i` outside the buffer. -/
inductive Logged where
  | wrote (out : List Char)
  | outOfBounds (i : Nat)
  deriving DecidableEq, Repr

/-- The loop `for (int i = 0; i < event->len; i++) fprintf(stdout, "%c", event->data[i])`
of `log_event`, with `n` iterations left, at index `i`, `out` being what has
been written so far.  The loop makes `len` iterations; a read of `data[i]`
with `i` outside the buffer ends the run as `outOfBounds i` (the buffer is
shorter than `2 ^ 31` bytes, so the `int` counter reaches the end of the buffer
before it could overflow). -/
def log_event_loop (event : data_event) : Nat → Nat → List Char → Logged
  | 0, _, out => .wrote out
  | n + 1, i, out =>
    match event.data.get? i with
    | none => .outOfBounds i
    | some c => log_event_loop event n (i + 1) (out ++ [c])

/-- `log_event` (loader.c 131-140). -/
def log_event (event : data_event) : Logged :=
  let op := if event.op = 1 then "SSL_OP_READ" else "SSL_OP_WRITE"
  let out := "[+] ".toList ++ event.comm ++ "(".toList ++ fmt_d event.pid ++ "), ts: ".toList ++
    fmt_llu event.ts ++ ", op: ".toList ++ op.toList ++ ", len: ".toList ++ fmt_d event.len ++
    " --> \n".toList
  match log_event_loop event event.len 0 out with
  | .outOfBounds i => .outOfBounds i
  | .wrote out => .wrote (out ++ "\n".toList)

/-- `handle_event` (loader.c 142-147): the record is cast to an event and
logged; the record size `len` is not looked at.  The value returned is 0. -/
def handle_event (data : data_event) (len : Nat) : Int × Logged :=
  let _ := len
  (0, log_event data)

/-! ## The consumer loop: `ssl_listen_event` -/

/-- The error number `EINTR` of Linux. -/
def EINTR : Int := 4

/-- How a run of `ssl_listen_event` ends: it returns `ret` after `polls` calls
of `ring_buffer__poll`, it dereferences a `skel` that is `NULL` or freed, or the
run is longer than the fuel given. -/
inductive Listened where
  | returned (ret : Int) (polls : Nat) (w : World)
  | fault
  | outOfFuel
  deriving DecidableEq, Repr

/-- The loop `while (!exiting) { ... }` of `ssl_listen_event` (loader.c 167-180),
about to evaluate its condition for the `k`-th time (from 0), `k` polls having
been made, the local `err` holding `err`.

`exiting` is a static flag that only `ssl_exit` writes, so it changes during
the loop only when `ssl_exit` runs asynchronously (from a signal handler):
`sigExit k` says that it runs just before the `k`-th evaluation of the
condition.  `poll k` is the value of the `k`-th call of `ring_buffer__poll`;
the records it hands to `handle_event` are not part of this model. -/
def listen_loop (sigExit : Nat → Bool) (poll : Nat → Int) :
    Nat → Nat → Int → World → Listened
  | 0, _, _, _ => .outOfFuel
  | fuel + 1, k, err, w =>
    let w := if sigExit k then ssl_exit w else w
    if w.exiting then
      .returned err k w
    else
      let err := poll k
      if err = -EINTR then
        .returned 0 (k + 1) w
      else if err < 0 then
        .returned err (k + 1)
          { w with stderr := w.stderr ++ ["Error polling ring buffer: " ++ toString err ++ "\n"] }
      else
        listen_loop sigExit poll fuel (k + 1) err w

/-- `ssl_listen_event` (loader.c 154-184).  `rbOk` says whether
`ring_buffer__new` returns a ring buffer. -/
def ssl_listen_event (rbOk : Bool) (sigExit : Nat → Bool) (poll : Nat → Int) (fuel : Nat)
    (w : World) : Listened :=
  if w.skelLive then
    if rbOk then
      listen_loop sigExit poll fuel 0 0 w
    else
      .returned (-1) 0 { w with stderr := w.stderr ++ ["Failed to create ring buffer\n"] }
  else
    .fault

/-! ## Sequences of calls -/

/-- One call of the loader's lifecycle interface, with what the environment
answers during the call. -/
inductive Call where
  | load (openOk : Bool) (loadErr : Int)
  | attach (f : Family) (ok : Nat → Bool) (program_path : String)
  | exit

/-- Run one call; `none` when the call dereferences a `skel` that is `NULL`
or freed. -/
def Call.run : Call → World → Option World
  | .load openOk loadErr, w => some (ssl_load openOk loadErr w).2
  | .attach f ok program_path, w => (ssl_attach f ok program_path w).world?
  | .exit, w => some (ssl_exit w)

/-- Run a sequence of calls from left to right. -/
def runCalls : List Call → World → Option World
  | [], w => some w
  | c :: cs, w =>
    match c.run w with
    | none => none
    | some w1 => runCalls cs w1

/-! ## Definitions used to state the properties -/

/-- The attach functions as one loop over a list of specs, the `i`-th
attachment of the body being the first of the list. -/
def attachSpecs (ok : Nat → Bool) (program_path : String) : List ProbeSpec → Nat → World → Outcome
  | [], _, w => .ret 0 w
  | s :: ss, i, w =>
    (__ATTACH_UPROBE (ok i) program_path s.func_name s.ebpf_fn s.is_retprobe w).andThen
      (attachSpecs ok program_path ss (i + 1))

/-- The state after a successful `__ATTACH_UPROBE` of `s`. -/
def wOk (w : World) (s : ProbeSpec) : World :=
  { w with links := w.links.set s.ebpf_fn (some w.nextLink),
           nextLink := w.nextLink + 1,
           attempts := w.attempts ++ [s],
           attached := w.attached ++ [(w.nextLink, s)] }

/-- The state after a failed `__ATTACH_UPROBE` of `s`. -/
def wFail (w : World) (s : ProbeSpec) : World :=
  { w with links := w.links.set s.ebpf_fn none,
           attempts := w.attempts ++ [s],
           stderr := w.stderr ++ ["Failed to attach uprobe\n"] }

/-- What an attach function leaves untouched. -/
structure SameResources (w w' : World) : Prop where
  skel : w'.skel = w.skel
  exiting : w'.exiting = w.exiting
  destroyed : w'.destroyed = w.destroyed
  released : w'.released = w.released

/-- The number of ENTER specs (`retprobe = false`) of a profile at symbol `s`. -/
def enterCount (p : List ProbeSpec) (s : String) : Nat :=
  (p.filter fun x => x.func_name == s && !x.is_retprobe).length

/-- The number of RETURN specs (`retprobe = true`) of a profile at symbol `s`. -/
def returnCount (p : List ProbeSpec) (s : String) : Nat :=
  (p.filter fun x => x.func_name == s && x.is_retprobe).length

/-- The pairing the specification asks of a profile, in its words: the list
is non-empty, every symbol with an ENTER spec has exactly one RETURN spec, and
every symbol with a RETURN spec has exactly one ENTER spec. -/
def spec_paired (p : List ProbeSpec) : Prop :=
  p ≠ [] ∧ ∀ x ∈ p, (x.is_retprobe = false → returnCount p x.func_name = 1) ∧
    (x.is_retprobe = true → enterCount p x.func_name = 1)

instance (p : List ProbeSpec) : Decidable (spec_paired p) := by
  unfold spec_paired; infer_instance

/-- Whether `text` starts with `word`. -/
def beginsWith : List Char → List Char → Bool
  | [], _ => true
  | _ :: _, [] => false
  | a :: as, b :: bs => a == b && beginsWith as bs

/-- Whether `word` occurs in `text` as a contiguous run. -/
def occursIn (word : List Char) : List Char → Bool
  | [] => word.isEmpty
  | c :: cs => beginsWith word (c :: cs) || occursIn word cs

/-- The error result of an attach call made right after a successful load:
the value returned together with what the call wrote to the error stream. -/
def attachError (f : Family) (ok : Nat → Bool) : Option (Int × List String) :=
  match ssl_attach f ok "" World.loaded with
  | .ret c w => some (c, w.stderr)
  | _ => none

/-- Whether an error result contains the symbol name `sym`. -/
def errorNamesSymbol (r : Int × List String) (sym : String) : Bool :=
  r.2.any fun line => occursIn sym.toList line.toList

/-- The output the specification gives for the default handler, in its words:
the header text ending in `--> `, followed immediately by the captured bytes
and one newline. -/
def spec_default_output (e : data_event) : List Char :=
  "[+] ".toList ++ e.comm ++ "(".toList ++ Nat.toDigits 10 e.pid ++ "), ts: ".toList ++
    Nat.toDigits 10 e.ts ++ ", op: ".toList ++
    (if e.op = 1 then "SSL_OP_READ" else "SSL_OP_WRITE").toList ++
    ", len: ".toList ++ Nat.toDigits 10 e.len ++ " --> ".toList ++ e.data.take e.len ++ "\n".toList

/-- The event of the end-to-end scenario: `SSL_write(fd, "PING", 4)` made by a
process `curl` with pid 1234, the data buffer holding the four bytes. -/
def pingEvent : data_event :=
  { comm := "curl".toList, pid := 1234, ts := 99, op := 2, len := 4, data := "PING".toList }

/-- An event whose `len` is one more than its data buffer holds. -/
def longEvent : data_event := { pingEvent with len := 5 }

/-- Polls that consume one record twice and are then interrupted. -/
def pollsThenEintr (i : Nat) : Int := if i < 2 then 1 else -4

/-! ## Lemmas -/

theorem ssl_attach_eq_attachSpecs (f : Family) (ok : Nat → Bool) (path : String) (w : World) :
    ssl_attach f ok path w = attachSpecs ok path (profile f) 0 w := by
  cases f <;> rfl

theorem attachSpecs_all_ok (ok : Nat → Bool) (path : String) (specs : List ProbeSpec) :
    ∀ (i : Nat) (w : World), w.skelLive = true →
      (∀ j, j < specs.length → ok (i + j) = true) →
      ∃ w', attachSpecs ok path specs i w = .ret 0 w' ∧ SameResources w w' ∧
        w'.stderr = w.stderr ∧
        w'.attempts = w.attempts ++ specs ∧
        w'.attached = w.attached ++ (List.range' w.nextLink specs.length).zip specs := by
  induction specs with
  | nil =>
    intro i w _ _
    exact ⟨w, rfl, ⟨rfl, rfl, rfl, rfl⟩, rfl, by simp, by simp⟩
  | cons s ss ih =>
    intro i w hw hok
    have h0 : ok i = true := by simpa using hok 0 (by simp)
    have hrest : ∀ j, j < ss.length → ok (i + 1 + j) = true := by
      intro j hj
      have := hok (j + 1) (by simp; omega)
      rwa [show i + (j + 1) = i + 1 + j by omega] at this
    let w1 : World := wOk w s
    have hw1 : w1.skelLive = true := hw
    obtain ⟨w', hrun, hsame, herr, hatt, hatd⟩ := ih (i + 1) w1 hw1 hrest
    refine ⟨w', ?_, ⟨hsame.skel, hsame.exiting, hsame.destroyed, hsame.released⟩, herr, ?_, ?_⟩
    · simp only [attachSpecs, __ATTACH_UPROBE, hw, h0, if_true, Outcome.andThen]
      exact hrun
    · rw [hatt]; simp [w1, wOk]
    · rw [hatd]; simp [w1, wOk, List.range'_succ]

theorem attachSpecs_first_failure (ok : Nat → Bool) (path : String) (specs : List ProbeSpec) :
    ∀ (i : Nat) (w : World) (k : Nat), w.skelLive = true → k < specs.length →
      (∀ j, j < k → ok (i + j) = true) → ok (i + k) = false →
      ∃ w', attachSpecs ok path specs i w = .ret 1 w' ∧ SameResources w w' ∧
        w'.stderr = w.stderr ++ ["Failed to attach uprobe\n"] ∧
        w'.attempts = w.attempts ++ specs.take (k + 1) ∧
        w'.attached = w.attached ++ (List.range' w.nextLink k).zip (specs.take k) := by
  induction specs with
  | nil => intro i w k _ hk; simp at hk
  | cons s ss ih =>
    intro i w k hw hk hok hfail
    cases k with
    | zero =>
      have h0 : ok i = false := by simpa using hfail
      refine ⟨wFail w s, ?_,
        ⟨rfl, rfl, rfl, rfl⟩, rfl, by simp [wFail], by simp [wFail]⟩
      simp only [attachSpecs, __ATTACH_UPROBE, hw, h0, if_true, Outcome.andThen]
      rfl
    | succ k =>
      have h0 : ok i = true := by simpa using hok 0 (by omega)
      have hrest : ∀ j, j < k → ok (i + 1 + j) = true := by
        intro j hj
        have := hok (j + 1) (by omega)
        rwa [show i + (j + 1) = i + 1 + j by omega] at this
      have hfail1 : ok (i + 1 + k) = false := by
        rwa [show i + (k + 1) = i + 1 + k by omega] at hfail
      let w1 : World := wOk w s
      have hw1 : w1.skelLive = true := hw
      obtain ⟨w', hrun, hsame, herr, hatt, hatd⟩ :=
        ih (i + 1) w1 k hw1 (by simpa using hk) hrest hfail1
      refine ⟨w', ?_, ⟨hsame.skel, hsame.exiting, hsame.destroyed, hsame.released⟩, herr, ?_, ?_⟩
      · simp only [attachSpecs, __ATTACH_UPROBE, hw, h0, if_true, Outcome.andThen]
        exact hrun
      · rw [hatt]; simp [w1, wOk]
      · rw [hatd]; simp [w1, wOk, List.range'_succ]


theorem mem_held (w : World) (h : Nat) :
    h ∈ w.held ↔ h ∈ w.attached.map Prod.fst ∧ h ∉ w.released := by
  simp [World.held]

theorem held_of_attached (w w' : World) (k : Nat) (specs : List ProbeSpec) (hk : k ≤ specs.length)
    (hatd : w'.attached = w.attached ++ (List.range' w.nextLink k).zip (specs.take k))
    (hrel : w'.released = w.released) :
    (∀ h, h ∈ w.held → h ∈ w'.held) ∧
    ∀ j, j < k → w.nextLink + j ∉ w.released → w.nextLink + j ∈ w'.held := by
  have hfst : ((List.range' w.nextLink k).zip (specs.take k)).map Prod.fst =
      List.range' w.nextLink k :=
    List.map_fst_zip _ _ (by simp [List.length_take]; omega)
  constructor
  · intro h hh
    rw [mem_held] at hh ⊢
    rw [hatd, hrel, List.map_append]
    exact ⟨List.mem_append_left _ hh.1, hh.2⟩
  · intro j hj hnot
    rw [mem_held, hatd, hrel, List.map_append, hfst]
    refine ⟨List.mem_append_right _ ?_, hnot⟩
    rw [List.mem_range'_1]
    omega

theorem exists_first_failure (ok : Nat → Bool) (n : Nat)
    (h : ¬ ∀ i, i < n → ok i = true) :
    ∃ k, k < n ∧ (∀ i, i < k → ok i = true) ∧ ok k = false := by
  have hex : ∃ k, k < n ∧ ok k = false := by
    push_neg at h
    obtain ⟨i, hi, hne⟩ := h
    exact ⟨i, hi, by simpa using hne⟩
  refine ⟨Nat.find hex, (Nat.find_spec hex).1, ?_, (Nat.find_spec hex).2⟩
  intro i hi
  have hmin := Nat.find_min hex hi
  have hlt : i < n := lt_trans hi (Nat.find_spec hex).1
  cases hoki : ok i with
  | true => rfl
  | false => exact absurd ⟨hlt, hoki⟩ hmin

theorem ssl_exit_keeps_exiting (w : World) (h : w.exiting = true) : (ssl_exit w).exiting = true := by
  unfold ssl_exit
  cases w.skel with
  | none => exact h
  | some p => rfl

theorem listen_loop_stops_at_negative (sigExit : Nat → Bool) (poll : Nat → Int) (k : Nat)
    (hneg : poll k < 0) :
    ∀ (fuel j : Nat) (err : Int) (w : World), j ≤ k → k - j < fuel →
      (∀ i, j ≤ i → i < k → 0 ≤ poll i) →
      ∃ r n w', listen_loop sigExit poll fuel j err w = .returned r n w' ∧ n ≤ k + 1 ∧
        (n = k + 1 → r = if poll k = -EINTR then 0 else poll k) ∧
        (w.exiting = false → (∀ i, j ≤ i → i ≤ k → sigExit i = false) → n = k + 1) := by
  intro fuel
  induction fuel with
  | zero => intro j err w _ h; omega
  | succ fuel ih =>
    intro j err w hjk hfuel hpos
    have hw2 : ∀ w2 : World, (if sigExit j = true then ssl_exit w else w) = w2 →
        ∃ r n w', listen_loop sigExit poll (fuel + 1) j err w = .returned r n w' ∧ n ≤ k + 1 ∧
          (n = k + 1 → r = if poll k = -EINTR then 0 else poll k) ∧
          (w.exiting = false → (∀ i, j ≤ i → i ≤ k → sigExit i = false) → n = k + 1) := by
      intro w2 hw2
      have hsame : w.exiting = false → (∀ i, j ≤ i → i ≤ k → sigExit i = false) →
          w2.exiting = false := by
        intro hw hs
        have hsj := hs j (le_refl j) hjk
        rw [← hw2]; simp [hsj, hw]
      simp only [listen_loop, hw2]
      by_cases hex : w2.exiting = true
      · refine ⟨err, j, w2, by simp only [hex, if_true], by omega, by omega, ?_⟩
        intro hw hs
        have := hsame hw hs
        simp [hex] at this
      · rcases Nat.lt_or_ge j k with hlt | hge
        · have hp := hpos j (le_refl j) hlt
          have h1 : ¬ poll j = -EINTR := by unfold EINTR; omega
          have h2 : ¬ poll j < 0 := by omega
          obtain ⟨r, n, w', hrun, hn, hret, hfull⟩ :=
            ih (j + 1) (poll j) w2 (by omega) (by omega) (fun i hi hik => hpos i (by omega) hik)
          refine ⟨r, n, w', by simp only [hex, h1, h2, Bool.false_eq_true, if_false, hrun], hn, hret, ?_⟩
          intro hw hs
          exact hfull (by simpa using hex) (fun i hi hik => hs i (by omega) hik)
        · have hjk' : j = k := by omega
          subst hjk'
          by_cases h1 : poll j = -EINTR
          · exact ⟨0, j + 1, w2, by simp only [hex, h1, Bool.false_eq_true, if_true, if_false], by omega,
              by intro _; simp [h1], by intros; rfl⟩
          · exact ⟨poll j, j + 1,
              { w2 with stderr := w2.stderr ++ ["Error polling ring buffer: " ++ toString (poll j) ++ "\n"] },
              by simp only [hex, h1, hneg, Bool.false_eq_true, if_true, if_false], by omega,
              by intro _; simp [h1], by intros; rfl⟩
    exact hw2 _ rfl

theorem log_event_loop_in_bounds (e : data_event) :
    ∀ (n i : Nat) (out : List Char), i + n ≤ e.data.length →
      log_event_loop e n i out = .wrote (out ++ (e.data.drop i).take n) := by
  intro n
  induction n with
  | zero => intro i out _; simp [log_event_loop]
  | succ n ih =>
    intro i out h
    have hi : i < e.data.length := by omega
    have hget : e.data.get? i = some (e.data.get ⟨i, hi⟩) := List.get?_eq_get hi
    have hdrop : e.data.drop i = e.data.get ⟨i, hi⟩ :: e.data.drop (i + 1) :=
      List.drop_eq_getElem_cons hi
    simp only [log_event_loop, hget]
    rw [ih (i + 1) _ (by omega), hdrop]
    simp only [List.take_succ_cons, List.append_assoc, List.singleton_append]

theorem log_event_loop_out_of_bounds (e : data_event) :
    ∀ (n i : Nat) (out : List Char), i ≤ e.data.length → e.data.length < i + n →
      log_event_loop e n i out = .outOfBounds e.data.length := by
  intro n
  induction n with
  | zero => intro i out h1 h2; omega
  | succ n ih =>
    intro i out h1 h2
    rcases Nat.lt_or_ge i e.data.length with hi | hi
    · have hget : e.data.get? i = some (e.data.get ⟨i, hi⟩) := List.get?_eq_get hi
      simp only [log_event_loop, hget]
      exact ih (i + 1) _ (by omega) (by omega)
    · have hieq : i = e.data.length := by omega
      have hget : e.data.get? i = none := List.get?_eq_none.mpr hi
      simp only [log_event_loop, hget]
      rw [hieq]

theorem fmt_d_of_lt (v : Nat) (h : v < 2 ^ 31) : fmt_d v = Nat.toDigits 10 v := by
  have h1 : v % 2 ^ 32 = v := Nat.mod_eq_of_lt (by omega)
  unfold fmt_d
  rw [h1, if_pos h]


/-- The OpenSSL profile, as `ssl_attach_openssl` lists it. -/
theorem profile_openssl_eq :
    profile .openssl =
      [⟨"SSL_set_fd", .probe_fd_attach_ssl, false⟩,
       ⟨"SSL_write", .probe_ssl_rw_enter, false⟩,
       ⟨"SSL_write", .probe_ssl_write_return, true⟩,
       ⟨"SSL_read", .probe_ssl_rw_enter, false⟩,
       ⟨"SSL_read", .probe_ssl_read_return, true⟩] := by
  decide

/-- The GnuTLS profile, as `ssl_attach_gnutls` lists it. -/
theorem profile_gnutls_eq :
    profile .gnutls =
      [⟨"gnutls_record_send", .probe_ssl_rw_enter, false⟩,
       ⟨"gnutls_record_send", .probe_ssl_write_return, true⟩,
       ⟨"gnutls_record_recv", .probe_ssl_rw_enter, false⟩,
       ⟨"gnutls_record_recv", .probe_ssl_read_return, true⟩] := by
  decide

/-- The NSS profile, as `ssl_attach_nss` lists it. -/
theorem profile_nss_eq :
    profile .nss =
      [⟨"PR_Write", .probe_ssl_rw_enter, false⟩,
       ⟨"PR_Write", .probe_ssl_write_return, true⟩,
       ⟨"PR_Read", .probe_ssl_rw_enter, false⟩,
       ⟨"PR_Read", .probe_ssl_read_return, true⟩,
       ⟨"PR_Send", .probe_ssl_rw_enter, false⟩,
       ⟨"PR_Send", .probe_ssl_write_return, true⟩,
       ⟨"PR_Recv", .probe_ssl_rw_enter, false⟩,
       ⟨"PR_Recv", .probe_ssl_read_return, true⟩] := by
  decide

/-! ## The claims -/

/-- Claim C1, evaluated on the code: after a successful `ssl_load`, two calls
of `ssl_exit` in a row pass the same skeleton (pointer 0) to
`sniffer_bpf__destroy` twice, because `ssl_exit` never resets `skel`. -/
theorem ssl_exit_twice_destroys_twice :
    (runCalls [Call.load true 0, Call.exit, Call.exit] World.start).map
        (fun w => (w.skel, w.destroyed, w.destroyed.count 0)) = some (some 0, [0, 0], 2) ∧
    (runCalls [Call.load true 0, Call.exit] World.start).map
        (fun w => (w.skel, w.destroyed)) = some (some 0, [0]) ∧
    runCalls [Call.exit, Call.exit] World.start = some World.start := by
  decide

/-- Claim C2, evaluated on the code: the ring buffer is created, the first
poll consumes 3 records and returns 3, then `ssl_exit` sets `exiting` and the
loop leaves on its next test; `ssl_listen_event` returns 3, the value of the
last poll, not 0. -/
theorem ssl_listen_event_cancel_returns_last_poll :
    ssl_listen_event true (fun k => decide (k = 1)) (fun _ => 3) 2 World.loaded =
      .returned 3 1 (ssl_exit World.loaded) ∧
    ssl_listen_event true (fun k => decide (k = 0)) (fun _ => 3) 2 World.loaded =
      .returned 0 0 (ssl_exit World.loaded) := by
  decide

/-- Claim C3: an attach function called with a live skeleton returns; it
returns 0 exactly when every attachment of its profile succeeds and 1
otherwise; it releases nothing; when all succeed the attachments attempted and
made are the whole profile in order; when the first failure is at index `k`
the attachments attempted are the first `k + 1` specs of the profile, and the
`k` attachments made before the failure are all recorded as made, with fresh
handles; every attachment held before the call is still held after it, and
so is each of the `k` new ones (handle `nextLink + j`), nothing having been
released. -/
theorem ssl_attach_stops_at_first_failure (f : Family) (ok : Nat → Bool) (path : String)
    (w : World) (hw : w.skelLive = true) :
    ∃ r w', ssl_attach f ok path w = .ret r w' ∧
      (r = 0 ↔ ∀ i, i < (profile f).length → ok i = true) ∧
      (r ≠ 0 → r = 1) ∧
      w'.released = w.released ∧ w'.destroyed = w.destroyed ∧
      (r = 0 → w'.attempts = w.attempts ++ profile f ∧
        w'.attached = w.attached ++
          (List.range' w.nextLink (profile f).length).zip (profile f)) ∧
      (∀ k, k < (profile f).length → (∀ i, i < k → ok i = true) → ok k = false →
        w'.attempts = w.attempts ++ (profile f).take (k + 1) ∧
        w'.attached = w.attached ++ (List.range' w.nextLink k).zip ((profile f).take k) ∧
        (∀ h, h ∈ w.held → h ∈ w'.held) ∧
        (∀ j, j < k → w.nextLink + j ∉ w.released → w.nextLink + j ∈ w'.held)) := by
  rw [ssl_attach_eq_attachSpecs]
  by_cases hall : ∀ i, i < (profile f).length → ok i = true
  · obtain ⟨w', hrun, hsame, _, hatt, hatd⟩ :=
      attachSpecs_all_ok ok path (profile f) 0 w hw (by simpa using hall)
    refine ⟨0, w', hrun, by simpa using hall, by simp, hsame.released, hsame.destroyed,
      fun _ => ⟨hatt, hatd⟩, ?_⟩
    intro k hk _ hfail
    rw [hall k hk] at hfail
    exact absurd hfail (by simp)
  · obtain ⟨k, hk, hpre, hfail⟩ := exists_first_failure ok (profile f).length hall
    obtain ⟨w', hrun, hsame, _, hatt, hatd⟩ :=
      attachSpecs_first_failure ok path (profile f) 0 w k hw hk (by simpa using hpre)
        (by simpa using hfail)
    refine ⟨1, w', hrun, ?_, by simp, hsame.released, hsame.destroyed, by simp, ?_⟩
    · constructor
      · intro h; exact absurd h (by decide)
      · intro h; exact absurd h hall
    · intro k' hk' hpre' hfail'
      have hkk : k' = k := by
        rcases Nat.lt_trichotomy k' k with hlt | heq | hgt
        · rw [hpre k' hlt] at hfail'; exact absurd hfail' (by simp)
        · exact heq
        · rw [hpre' k hgt] at hfail; exact absurd hfail (by simp)
      subst hkk
      exact ⟨hatt, hatd, held_of_attached w w' k' (profile f) (le_of_lt hk) hatd hsame.released⟩

/-- Witness of C3: OpenSSL, loaded skeleton, the fourth attachment
(`SSL_read` entry, index 3) fails: the call returns 1 after attempting the
first four specs, and the three attachments made are still there. -/
theorem ssl_attach_stops_at_first_failure_witness :
    World.loaded.skelLive = true ∧
    ∃ r w', ssl_attach .openssl (fun i => decide (i ≠ 3)) "libssl.so" World.loaded = .ret r w' ∧
      r = 1 ∧ w'.attempts = (profile .openssl).take 4 ∧
      w'.attached.map Prod.fst = [0, 1, 2] ∧ w'.released = [] ∧
      0 ∈ w'.held ∧ 1 ∈ w'.held ∧ 2 ∈ w'.held := by
  refine ⟨by decide, ?_⟩
  obtain ⟨r, w', hrun, hiff, hne, hrel, _, _, hfail⟩ :=
    ssl_attach_stops_at_first_failure .openssl (fun i => decide (i ≠ 3)) "libssl.so"
      World.loaded (by decide)
  have h3 := hfail 3 (by decide) (by decide) (by decide)
  have hr : r = 1 := hne (fun h0 => by
    have := hiff.mp h0 3 (by decide)
    simp at this)
  refine ⟨r, w', hrun, hr, ?_, ?_, ?_, ?_, ?_, ?_⟩
  · rw [h3.1]; decide
  · rw [h3.2.1]; decide
  · rw [hrel]; decide
  · exact h3.2.2.2 0 (by decide) (by decide)
  · exact h3.2.2.2 1 (by decide) (by decide)
  · exact h3.2.2.2 2 (by decide) (by decide)

/-- Claim C4, evaluated on the code: after a successful load,
`ssl_attach_openssl` with every attachment succeeding makes five attachments
(handles 0 to 4) but the link slots retain four handles: handle 1 (`SSL_write`
entry) was overwritten in slot `probe_ssl_rw_enter` by handle 3 (`SSL_read`
entry).  The following `ssl_exit` releases handles 0, 3, 2, 4 and leaves
attachment 1 unreleased.  The GnuTLS function retains 3 handles of 4 and the
NSS function 3 of 8 in the same way. -/
theorem ssl_attach_openssl_overwrites_link :
    (runCalls [Call.load true 0, Call.attach .openssl (fun _ => true) "libssl.so"]
        World.start).map (fun w => (w.attached.map Prod.fst, w.links.handles)) =
      some ([0, 1, 2, 3, 4], [0, 3, 2, 4]) ∧
    (runCalls [Call.load true 0, Call.attach .openssl (fun _ => true) "libssl.so", Call.exit]
        World.start).map (fun w => (w.released, w.held)) = some ([0, 3, 2, 4], [1]) ∧
    (runCalls [Call.load true 0, Call.attach .gnutls (fun _ => true) "libgnutls.so"]
        World.start).map (fun w => (w.attached.map Prod.fst, w.links.handles)) =
      some ([0, 1, 2, 3], [2, 1, 3]) ∧
    (runCalls [Call.load true 0, Call.attach .nss (fun _ => true) "libnspr4.so"]
        World.start).map (fun w => (w.attached.map Prod.fst, w.links.handles)) =
      some ([0, 1, 2, 3, 4, 5, 6, 7], [6, 5, 7]) := by
  decide

/-- Counterexample to C5 as stated: the OpenSSL profile has an ENTER spec at
`SSL_set_fd` and no RETURN spec at that symbol, so it is not paired. -/
theorem openssl_profile_not_paired :
    ¬ spec_paired (profile .openssl) ∧
    (⟨"SSL_set_fd", .probe_fd_attach_ssl, false⟩ : ProbeSpec) ∈ profile .openssl ∧
    returnCount (profile .openssl) "SSL_set_fd" = 0 := by
  decide

/-- Claim C5 as amended: every profile is non-empty; the GnuTLS and NSS
profiles are paired one to one by symbol; in the OpenSSL profile every symbol
with a RETURN spec has exactly one ENTER spec, and every symbol with an ENTER
spec has exactly one RETURN spec except `SSL_set_fd`, which has an ENTER spec
only. -/
theorem profiles_enter_return_pairing :
    (∀ f : Family, profile f ≠ []) ∧
    spec_paired (profile .gnutls) ∧ spec_paired (profile .nss) ∧
    (∀ x ∈ profile .openssl,
      (x.is_retprobe = true → enterCount (profile .openssl) x.func_name = 1) ∧
      (x.is_retprobe = false → x.func_name ≠ "SSL_set_fd" →
        returnCount (profile .openssl) x.func_name = 1)) ∧
    enterCount (profile .openssl) "SSL_set_fd" = 1 ∧
    returnCount (profile .openssl) "SSL_set_fd" = 0 := by
  refine ⟨fun f => by cases f <;> decide, by decide, by decide, by decide, by decide, by decide⟩

/-- Counterexample to C6 as stated: OpenSSL, the first attachment (symbol
`SSL_set_fd`) fails.  The error result is the value 1 with the diagnostic
`Failed to attach uprobe`, which does not contain `SSL_set_fd`; a failure at
the second spec (symbol `SSL_write`) gives the very same error result. -/
theorem attach_failure_does_not_name_symbol :
    (profile .openssl).head?.map (fun s => s.func_name) = some "SSL_set_fd" ∧
    attachError .openssl (fun _ => false) = some (1, ["Failed to attach uprobe\n"]) ∧
    (attachError .openssl (fun _ => false)).map (fun r => errorNamesSymbol r "SSL_set_fd") =
      some false ∧
    attachError .openssl (fun i => decide (i ≠ 1)) = attachError .openssl (fun _ => false) := by
  decide

/-- Claim C6 as amended: when an attach function fails, whatever the family
and whatever the index `k` of the first failing spec, it returns 1 and writes
the one fixed line `Failed to attach uprobe` to the error stream; the error
result is the same for every failing spec and does not depend on the symbol. -/
theorem ssl_attach_failure_result_is_fixed (f : Family) (ok : Nat → Bool) (path : String)
    (w : World) (k : Nat) (hw : w.skelLive = true) (hk : k < (profile f).length)
    (hpre : ∀ i, i < k → ok i = true) (hfail : ok k = false) :
    ∃ w', ssl_attach f ok path w = .ret 1 w' ∧
      w'.stderr = w.stderr ++ ["Failed to attach uprobe\n"] := by
  rw [ssl_attach_eq_attachSpecs]
  obtain ⟨w', hrun, _, herr, _, _⟩ :=
    attachSpecs_first_failure ok path (profile f) 0 w k hw hk (by simpa using hpre)
      (by simpa using hfail)
  exact ⟨w', hrun, herr⟩

/-- Witness of C6 as amended: NSS, loaded skeleton, the sixth attachment
(`PR_Send` return, index 5) fails. -/
theorem ssl_attach_failure_result_is_fixed_witness :
    World.loaded.skelLive = true ∧ 5 < (profile .nss).length ∧
    ∃ w', ssl_attach .nss (fun i => decide (i ≠ 5)) "libnspr4.so" World.loaded = .ret 1 w' ∧
      w'.stderr = World.loaded.stderr ++ ["Failed to attach uprobe\n"] :=
  ⟨by decide, by decide,
    ssl_attach_failure_result_is_fixed .nss (fun i => decide (i ≠ 5)) "libnspr4.so"
      World.loaded 5 (by decide) (by decide) (by decide) (by decide)⟩

/-- Counterexample to C7 as stated: for the event of the end-to-end scenario
the handler writes a newline between `--> ` and the captured bytes, so its
output is not the text of the specification; the output does contain
`op: SSL_OP_WRITE`, `len: 4` and the bytes `PING`. -/
theorem log_event_ping_differs_from_spec_output :
    log_event pingEvent ≠ .wrote (spec_default_output pingEvent) ∧
    log_event pingEvent =
      .wrote "[+] curl(1234), ts: 99, op: SSL_OP_WRITE, len: 4 --> \nPING\n".toList ∧
    spec_default_output pingEvent =
      "[+] curl(1234), ts: 99, op: SSL_OP_WRITE, len: 4 --> PING\n".toList := by
  decide

/-- Claim C7 as amended: for every event whose `len` does not exceed its data
buffer, the handler writes exactly `[+] <comm>(<pid>), ts: <ts>, op: <OP>, len: <len> --> `,
then a newline, then the first `len` captured bytes unescaped, then one
newline; `<pid>` and `<len>` are printed by `%d`, `<ts>` by `%llu`, and `<OP>`
is `SSL_OP_READ` when `op = 1` and `SSL_OP_WRITE` otherwise (so for `op = 2`). -/
theorem log_event_output (e : data_event) (hlen : e.len ≤ e.data.length) :
    log_event e = .wrote ("[+] ".toList ++ e.comm ++ "(".toList ++ fmt_d e.pid ++
      "), ts: ".toList ++ fmt_llu e.ts ++ ", op: ".toList ++
      (if e.op = 1 then "SSL_OP_READ" else "SSL_OP_WRITE").toList ++
      ", len: ".toList ++ fmt_d e.len ++ " --> ".toList ++ "\n".toList ++
      e.data.take e.len ++ "\n".toList) := by
  unfold log_event
  simp only []
  rw [log_event_loop_in_bounds e e.len 0 _ (by omega)]
  simp

/-- Witness of C7 as amended: the event of the end-to-end scenario. -/
theorem log_event_output_witness :
    pingEvent.len ≤ pingEvent.data.length ∧
    log_event pingEvent =
      .wrote "[+] curl(1234), ts: 99, op: SSL_OP_WRITE, len: 4 --> \nPING\n".toList :=
  ⟨by decide, (log_event_output pingEvent (by decide)).trans (by decide)⟩

/-- Claim C8: with a live skeleton, when `ring_buffer__new` fails
`ssl_listen_event` returns -1 without polling; when it succeeds and the poll
results are non-negative before index `k` and negative at `k`, the function
returns (given fuel for `k + 1` iterations) after at most `k + 1` polls, so
never polls past the first negative result; when it made that poll it returns
0 if the result is `-EINTR` and the result itself otherwise; and it does make
that poll when `exiting` is not set before. -/
theorem ssl_listen_event_poll_errors (sigExit : Nat → Bool) (poll : Nat → Int) (fuel : Nat)
    (w : World) (hw : w.skelLive = true) :
    ssl_listen_event false sigExit poll fuel w =
      .returned (-1) 0 { w with stderr := w.stderr ++ ["Failed to create ring buffer\n"] } ∧
    ∀ k, k < fuel → (∀ i, i < k → 0 ≤ poll i) → poll k < 0 →
      ∃ r n w', ssl_listen_event true sigExit poll fuel w = .returned r n w' ∧ n ≤ k + 1 ∧
        (n = k + 1 → r = if poll k = -EINTR then 0 else poll k) ∧
        (w.exiting = false → (∀ i, i ≤ k → sigExit i = false) → n = k + 1) := by
  constructor
  · simp [ssl_listen_event, hw]
  · intro k hk hpos hneg
    obtain ⟨r, n, w', hrun, hn, hret, hfull⟩ :=
      listen_loop_stops_at_negative sigExit poll k hneg fuel 0 0 w (Nat.zero_le k) (by omega)
        (fun i _ hik => hpos i hik)
    refine ⟨r, n, w', by simp [ssl_listen_event, hw, hrun], hn, hret, ?_⟩
    intro hex hs
    exact hfull hex (fun i _ hik => hs i hik)

/-- Witness of C8: two polls that consume a record each, then `-EINTR`, no
cancellation: the function returns 0 after exactly three polls. -/
theorem ssl_listen_event_poll_errors_witness :
    World.loaded.skelLive = true ∧
    ∃ n w', ssl_listen_event true (fun _ => false) pollsThenEintr 3 World.loaded =
      .returned 0 n w' ∧ n = 3 := by
  refine ⟨by decide, ?_⟩
  obtain ⟨r, n, w', hrun, _, hret, hfull⟩ :=
    (ssl_listen_event_poll_errors (fun _ => false) pollsThenEintr 3 World.loaded
      (by decide)).2 2 (by decide) (by decide) (by decide)
  have hn : n = 3 := hfull (by decide) (fun _ _ => rfl)
  have hr : r = 0 := by
    rw [hret hn]; decide
  subst hr
  exact ⟨n, w', hrun, hn⟩

/-- Counterexample to C9 as stated: an event whose `len` is 5 over a data
buffer of 4 bytes makes the handler read `data[4]`, outside the buffer. -/
theorem handle_event_reads_past_buffer :
    longEvent.data.length = 4 ∧ longEvent.len = 5 ∧
    handle_event longEvent 0 = (0, .outOfBounds 4) := by
  decide

/-- Claim C9 as amended: the handler applies no cap of its own.  Whatever the
record size, it returns 0 having read `data[0]` to `data[len - 1]`: when `len`
does not exceed the data buffer every read is inside it and exactly `len`
payload bytes are written (the output succeeds); when `len` exceeds the buffer
the read at the first index past the buffer is made. -/
theorem handle_event_in_bounds_iff (e : data_event) (size : Nat) :
    (handle_event e size).1 = 0 ∧
    ((∃ out, (handle_event e size).2 = .wrote out) ↔ e.len ≤ e.data.length) ∧
    ((handle_event e size).2 = .outOfBounds e.data.length ↔ e.data.length < e.len) := by
  have hin : e.len ≤ e.data.length → ∃ out, log_event e = .wrote out := by
    intro h
    unfold log_event
    simp only []
    rw [log_event_loop_in_bounds e e.len 0 _ (by omega)]
    exact ⟨_, rfl⟩
  have hout : e.data.length < e.len → log_event e = .outOfBounds e.data.length := by
    intro h
    unfold log_event
    simp only []
    rw [log_event_loop_out_of_bounds e e.len 0 _ (Nat.zero_le _) (by omega)]
  refine ⟨rfl, ⟨?_, hin⟩, ⟨?_, hout⟩⟩
  · rintro ⟨out, hw⟩
    by_contra hlt
    have := hout (by omega)
    simp only [handle_event] at hw
    rw [this] at hw
    exact absurd hw (by simp)
  · intro hw
    by_contra hle
    obtain ⟨out, this⟩ := hin (by omega)
    simp only [handle_event] at hw
    rw [this] at hw
    exact absurd hw (by simp)

/-- Counterexample to C10 as stated: when no skeleton exists (load never
called, or `sniffer_bpf__open` failed) `ssl_exit` returns at its guard and
`exiting` stays false. -/
theorem ssl_exit_without_skeleton_leaves_flag :
    (ssl_exit World.start).exiting = false ∧
    (ssl_exit (ssl_load false 0 World.start).2).exiting = false := by
  decide

/-- Claim C10 as amended: in every state in which `skel` is not `NULL` (the
skeleton was opened, whether its load then failed or succeeded), after
`ssl_exit` the flag `exiting` is true, and a consumer loop that evaluates its
condition next returns there without a further poll. -/
theorem ssl_exit_signals_stop (w : World) (h : w.skel ≠ none) :
    (ssl_exit w).exiting = true ∧
    ∀ (sigExit : Nat → Bool) (poll : Nat → Int) (fuel k : Nat) (err : Int),
      ∃ w', listen_loop sigExit poll (fuel + 1) k err (ssl_exit w) = .returned err k w' := by
  have hex : (ssl_exit w).exiting = true := by
    unfold ssl_exit
    cases hs : w.skel with
    | none => exact absurd hs h
    | some p => rfl
  refine ⟨hex, ?_⟩
  intro sigExit poll fuel k err
  have h2 : (if sigExit k = true then ssl_exit (ssl_exit w) else ssl_exit w).exiting = true := by
    split
    · exact ssl_exit_keeps_exiting _ hex
    · exact hex
  exact ⟨if sigExit k = true then ssl_exit (ssl_exit w) else ssl_exit w,
    by simp only [listen_loop, h2, if_true]⟩

/-- Witness of C10 as amended: the skeleton was opened but its load failed. -/
theorem ssl_exit_signals_stop_witness :
    (ssl_load true 1 World.start).2.skel ≠ none ∧
    (ssl_exit (ssl_load true 1 World.start).2).exiting = true :=
  ⟨by decide, (ssl_exit_signals_stop (ssl_load true 1 World.start).2 (by decide)).1⟩

end SslSniffer
